import Mathlib

/-!
Verification of the `LibraryChecklist` widget
(`src/Refactoring/App/frontend/src/components/modules/libLabel.js`).

The component renders three fixed columns of checkbox inputs (21 library
names), tracks the selected labels in a parent-owned ordered sequence
(`checkedInputs` / `setCheckedInputs`), and after each render forces the
checked state of every selected checkbox back to `true` via
`document.getElementById(id).checked = true`.

Embedding choices:
* the selection sequence is a `List String`;
* the document is an association list `Dom = List (String × Bool)` from
  checkbox `id` attribute to its checked state (`getElementById` is lookup);
* the `useEffect` resynchronization pass returns `Option Dom`: `none` models
  the TypeError raised by `a.checked = true` when `getElementById` returned
  `null` (no element with that id);
* user interaction is a click on a checkbox, which flips the DOM state of
  the element, fires the change event with the new `e.target.checked` and
  `e.target.id`, runs `changeHandler`, and then (after React re-renders with
  the new selection) runs the resynchronization pass.
-/

namespace LibLabel

/-- Constant `libName1` in libLabel.js: the first column of library names. -/
def libName1 : List String :=
  ["전체도서관", "강남도서관", "강동도서관", "강서도서관", "개포도서관", "고덕학습관", "고척도서관"]

/-- Constant `libName2` in libLabel.js: the second column of library names. -/
def libName2 : List String :=
  ["구로도서관", "남산도서관", "노원학습관", "도봉도서관", "동대문도서관", "동작도서관", "마포학습관"]

/-- Constant `libName3` in libLabel.js: the third column of library names. -/
def libName3 : List String :=
  ["서대문도서관", "송파도서관", "양천도서관", "영등포도서관", "용산도서관", "정독도서관", "종로도서관"]

/-- All 21 rendered labels, in render order (column 1, column 2, column 3). -/
def allLabels : List String := libName1 ++ libName2 ++ libName3

/-- Function `changeHandler` from `CustomInput`: on a change event with `checked` and
`id = e.target.id`, the list handed to `setCheckedInputs` is
`[...checkedInputs, id]` when checked, and
`checkedInputs.filter((el) => el !== id)` when unchecked. -/
def changeHandler (checked : Bool) (id : String) (checkedInputs : List String) :
    List String :=
  if checked then checkedInputs ++ [id]
  else checkedInputs.filter (fun el => el ≠ id)

/-- The rendered document restricted to what this component reads:
checkbox elements keyed by their `id` attribute, carrying a checked state.
The component gives every checkbox a distinct id (the label string), so keys
are distinct. -/
abbrev Dom : Type := List (String × Bool)

/-- Model of `document.getElementById(id)` narrowed to the checkbox elements: returns
the checked state of the element with the given id, or `none` (JS `null`)
when no such element exists. -/
def getElementById (id : String) : Dom → Option Bool
  | [] => none
  | (k, b) :: rest => if k = id then some b else getElementById id rest

/-- Model of the assignment `a.checked = true` on the element found by id
(ids are unique, so at most one pair is affected). -/
def setCheckedTrue (id : String) : Dom → Dom
  | [] => []
  | (k, b) :: rest => (k, if k = id then true else b) :: setCheckedTrue id rest

/-- A user click on the checkbox with the given id flips its DOM checked
state (checkboxes are uncontrolled inputs here). -/
def toggleElem (id : String) : Dom → Dom
  | [] => []
  | (k, b) :: rest => (k, if k = id then !b else b) :: toggleElem id rest

/-- The loop body of the `useEffect` pass: for each id in checkedInputs it
runs `var a = document.getElementById(id)` and then `a.checked = true`.
Here `none` models the uncaught TypeError when `a` is `null`: the pass
aborts and the remaining ids are not processed. -/
def resyncGo : List String → Dom → Option Dom
  | [], dom => some dom
  | id :: rest, dom =>
    match getElementById id dom with
    | none => none
    | some _ => resyncGo rest (setCheckedTrue id dom)

/-- The `useEffect` resynchronization pass of `Label`: it runs only when
`checkedInputs.length !== 0`. -/
def resync (checkedInputs : List String) (dom : Dom) : Option Dom :=
  if checkedInputs.length ≠ 0 then resyncGo checkedInputs dom else some dom

/-- The document as first rendered: one checkbox per label, all unchecked
(the JSX renders plain `<input type="checkbox">` with no checked attribute). -/
def initDom : Dom := allLabels.map (fun v => (v, false))

/-- What `CustomInput(v, i, …)` contributes to the rendered tree, restricted
to what the claims read: the React key (the `key` attribute, set to `i`),
the `id` attribute of the input (set to `v`), and the visible label text
(also `v`). -/
structure RenderedInput where
  key : Nat
  id : String
  text : String
deriving DecidableEq, Repr

/-- Function `CustomInput` from libLabel.js: key is the positional argument `i`, while
both the `id` attribute and the label text are the label string `v`. -/
def CustomInput (v : String) (i : Nat) : RenderedInput := ⟨i, v, v⟩

/-- The 21 inputs rendered by `Label`: column 1 keyed by `i`, columns 2 and 3
keyed by `i + 100`. -/
def renderedInputs : List RenderedInput :=
  (libName1.mapIdx fun i v => CustomInput v i)
    ++ (libName2.mapIdx fun i v => CustomInput v (i + 100))
    ++ (libName3.mapIdx fun i v => CustomInput v (i + 100))

/-- The selection update performed by the `onChange` wiring of an input:
`changeHandler(e.target.checked, e.target.id)` — it reads only the `id`
attribute of the element, never the index. -/
def inputToggle (inp : RenderedInput) (checked : Bool) (sel : List String) :
    List String :=
  changeHandler checked inp.id sel

/-- A heap of JS arrays, to express that the handler constructs a fresh array
(`[...checkedInputs, id]` / `filter`) instead of mutating the old one.
Array references are indices into the heap. -/
abbrev Heap : Type := List (List String)

/-- The heap-level view of `changeHandler`: reads the array at reference `r`,
allocates the new array at a fresh reference, and returns the heap together
with the reference passed to `setCheckedInputs`. -/
def changeHandlerRef (checked : Bool) (id : String) (r : Nat) (hp : Heap) :
    Heap × Nat :=
  let old := hp.getD r []
  (hp ++ [changeHandler checked id old], hp.length)

/-! ### Basic lemmas about the DOM operations -/

theorem getElementById_setCheckedTrue (id v : String) (dom : Dom) :
    getElementById v (setCheckedTrue id dom)
      = if v = id then (getElementById v dom).map (fun _ => true)
        else getElementById v dom := by
  induction dom with
  | nil => simp only [setCheckedTrue, getElementById, Option.map_none]; split <;> rfl
  | cons head rest ih =>
    obtain ⟨k, b⟩ := head
    simp only [setCheckedTrue, getElementById]
    by_cases hk : k = v
    · subst hk
      by_cases hv : k = id <;> simp [hv]
    · simp only [if_neg hk, ih]

theorem getElementById_toggleElem (id v : String) (dom : Dom) :
    getElementById v (toggleElem id dom)
      = if v = id then (getElementById v dom).map (fun b => !b)
        else getElementById v dom := by
  induction dom with
  | nil => simp only [toggleElem, getElementById, Option.map_none]; split <;> rfl
  | cons head rest ih =>
    obtain ⟨k, b⟩ := head
    simp only [toggleElem, getElementById]
    by_cases hk : k = v
    · subst hk
      by_cases hv : k = id <;> simp [hv]
    · simp only [if_neg hk, ih]

theorem resync_eq_resyncGo (sel : List String) (dom : Dom) :
    resync sel dom = resyncGo sel dom := by
  cases sel with
  | nil => simp [resync, resyncGo]
  | cons x xs => simp [resync]

/-- Characterization of a successful resynchronization pass: when every
selected id has a matching element, the pass completes and sets exactly the
selected ids to checked, leaving every other element untouched. -/
theorem resyncGo_spec (sel : List String) :
    ∀ dom : Dom, (∀ x ∈ sel, getElementById x dom ≠ none) →
      ∃ dom2, resyncGo sel dom = some dom2 ∧
        ∀ v, getElementById v dom2
          = if v ∈ sel then (getElementById v dom).map (fun _ => true)
            else getElementById v dom := by
  induction sel with
  | nil =>
    intro dom _
    exact ⟨dom, rfl, fun v => by simp⟩
  | cons id rest ih =>
    intro dom h
    obtain ⟨b, hb⟩ : ∃ b, getElementById id dom = some b := by
      cases hg : getElementById id dom with
      | none => exact absurd hg (h id (List.mem_cons_self id rest))
      | some b => exact ⟨b, rfl⟩
    have hrest : ∀ x ∈ rest, getElementById x (setCheckedTrue id dom) ≠ none := by
      intro x hx
      rw [getElementById_setCheckedTrue]
      by_cases hxid : x = id
      · subst hxid; rw [if_pos rfl, hb]; simp
      · rw [if_neg hxid]; exact h x (List.mem_cons_of_mem id hx)
    obtain ⟨dom2, hgo, hchar⟩ := ih (setCheckedTrue id dom) hrest
    refine ⟨dom2, ?_, ?_⟩
    · simp only [resyncGo, hb, hgo]
    · intro v
      rw [hchar v, getElementById_setCheckedTrue]
      by_cases hvrest : v ∈ rest
      · rw [if_pos hvrest, if_pos (List.mem_cons_of_mem id hvrest)]
        by_cases hvid : v = id
        · subst hvid; rw [if_pos rfl, hb]; rfl
        · rw [if_neg hvid]
      · rw [if_neg hvrest]
        by_cases hvid : v = id
        · subst hvid
          rw [if_pos rfl, if_pos (List.mem_cons_self v rest)]
        · rw [if_neg hvid, if_neg (by simp [hvid, hvrest])]

/-! ### The interaction state machine

A click on a rendered checkbox flips its DOM state, fires the change event
(`e.target.checked` is the new state, `e.target.id` the label), runs
`changeHandler`, and — after React commits the re-render caused by
`setCheckedInputs` — runs the `useEffect` resynchronization pass against the
new selection and the current DOM. -/

/-- The state visible to this component: the parent-owned selection sequence
and the rendered checkbox DOM. -/
structure SysState where
  sel : List String
  dom : Dom
deriving Repr

/-- The mounted component before any interaction: empty selection, all 21
checkboxes unchecked (the initial `useEffect` pass is skipped by the
`length !== 0` guard and changes nothing). -/
def initState : SysState := ⟨[], initDom⟩

/-- One user click on the checkbox with id `l`. The fault branch of the
resynchronization (`none`) never occurs on states reachable from
`initState` (this is established inside the proof of `inv_clickStep`);
it is modelled as leaving the DOM unchanged. -/
def clickStep (l : String) (s : SysState) : SysState :=
  let dom1 := toggleElem l s.dom
  let sel1 := changeHandler ((getElementById l dom1).getD false) l s.sel
  ⟨sel1, (resync sel1 dom1).getD dom1⟩

/-- Run a sequence of clicks from the freshly mounted component. -/
def runClicks (trace : List String) : SysState :=
  trace.foldl (fun s l => clickStep l s) initState

/-- Index of the last click on `a` in a click trace (meaningful when `a`
occurs in the trace). For a currently-checked label this is the click that
made it checked. -/
def lastOcc : List String → String → Nat
  | [], _ => 0
  | _ :: xs, a => if a ∈ xs then lastOcc xs a + 1 else 0

/-- Index of the first click on `a` in a click trace (meaningful when `a`
occurs in the trace). -/
def firstOcc : List String → String → Nat
  | [], _ => 0
  | x :: xs, a => if x = a then 0 else firstOcc xs a + 1

/-- The selection is ordered by the time each member was last clicked
(equivalently, for members of the selection: the time each most recently
became checked). -/
def OrderedByLastCheck (trace sel : List String) : Prop :=
  sel.Pairwise (fun a b => lastOcc trace a < lastOcc trace b)

/-- The selection is ordered by the time each member was first ever
clicked/checked. -/
def OrderedByFirstCheck (trace sel : List String) : Prop :=
  sel.Pairwise (fun a b => firstOcc trace a < firstOcc trace b)

theorem lastOcc_concat_self (t : List String) (l : String) :
    lastOcc (t ++ [l]) l = t.length := by
  induction t with
  | nil => simp [lastOcc]
  | cons x xs ih =>
    have hmem : l ∈ xs ++ [l] := List.mem_append_right xs (List.mem_singleton.mpr rfl)
    simp [lastOcc, hmem, ih]

theorem lastOcc_concat_ne (t : List String) {a l : String} (h : a ≠ l) :
    lastOcc (t ++ [l]) a = lastOcc t a := by
  induction t with
  | nil => simp [lastOcc, h]
  | cons x xs ih =>
    have e1 : lastOcc ((x :: xs) ++ [l]) a
        = if a ∈ xs ++ [l] then lastOcc (xs ++ [l]) a + 1 else 0 := rfl
    have e2 : lastOcc (x :: xs) a = if a ∈ xs then lastOcc xs a + 1 else 0 := rfl
    rw [e1, e2]
    by_cases hxs : a ∈ xs
    · rw [if_pos (List.mem_append_left _ hxs), if_pos hxs, ih]
    · rw [if_neg (by simp [List.mem_append, hxs, h]), if_neg hxs]

theorem lastOcc_lt_length {t : List String} {a : String} (h : a ∈ t) :
    lastOcc t a < t.length := by
  induction t with
  | nil => exact absurd h (List.not_mem_nil a)
  | cons x xs ih =>
    by_cases hxs : a ∈ xs
    · simp only [lastOcc, if_pos hxs, List.length_cons]
      exact Nat.succ_lt_succ (ih hxs)
    · simp only [lastOcc, if_neg hxs, List.length_cons]
      exact Nat.succ_pos _

theorem runClicks_concat (t : List String) (l : String) :
    runClicks (t ++ [l]) = clickStep l (runClicks t) := by
  simp [runClicks, List.foldl_append]

/-- The invariant tying a reachable state to the click trace that produced
it: the selection has no duplicates, only clicked labels are selected, the
DOM has exactly the 21 rendered checkboxes and the checked state of each is
exactly membership in the selection, and the selection is ordered by most
recent check. -/
def Inv (trace : List String) (s : SysState) : Prop :=
  s.sel.Nodup
    ∧ (∀ l ∈ s.sel, l ∈ trace)
    ∧ (∀ l ∈ s.sel, l ∈ allLabels)
    ∧ (∀ v, getElementById v s.dom
        = if v ∈ allLabels then some (decide (v ∈ s.sel)) else none)
    ∧ OrderedByLastCheck trace s.sel

theorem getElementById_initDom (v : String) :
    getElementById v initDom = if v ∈ allLabels then some false else none := by
  have h : ∀ L : List String,
      getElementById v (L.map fun x => (x, false))
        = if v ∈ L then some false else none := by
    intro L
    induction L with
    | nil => simp [getElementById]
    | cons x xs ih =>
      simp only [List.map_cons, getElementById, List.mem_cons, ih]
      by_cases hx : x = v
      · subst hx; simp
      · have hv : ¬v = x := fun he => hx he.symm
        simp [hx, hv]
  exact h allLabels

theorem inv_init : Inv [] initState := by
  refine ⟨List.nodup_nil, by simp [initState], by simp [initState], ?_,
    List.Pairwise.nil⟩
  intro v
  simpa [initState] using getElementById_initDom v

theorem inv_clickStep {trace : List String} {s : SysState} (l : String)
    (hl : l ∈ allLabels) (hinv : Inv trace s) :
    Inv (trace ++ [l]) (clickStep l s) := by
  obtain ⟨hnd, htr, hsub, hdom, hord⟩ := hinv
  have hdom1 : ∀ v, getElementById v (toggleElem l s.dom)
      = if v ∈ allLabels then
          some (if v = l then !(decide (v ∈ s.sel)) else decide (v ∈ s.sel))
        else none := by
    intro v
    rw [getElementById_toggleElem, hdom v]
    by_cases hv : v = l
    · subst hv; simp [hl]
    · simp [hv]
  have hgl : getElementById l (toggleElem l s.dom)
      = some (!(decide (l ∈ s.sel))) := by
    rw [hdom1 l]; simp [hl]
  by_cases hsel : l ∈ s.sel
  · -- the click unchecks `l`: the handler filters it out of the selection
    have hch : changeHandler ((getElementById l (toggleElem l s.dom)).getD false)
        l s.sel = s.sel.filter (fun el => el ≠ l) := by
      rw [hgl]
      simp [changeHandler, hsel]
    have hmemf : ∀ v, v ∈ s.sel.filter (fun el => el ≠ l) ↔ v ∈ s.sel ∧ v ≠ l := by
      intro v; simp [List.mem_filter]
    have hne : ∀ x ∈ s.sel.filter (fun el => el ≠ l),
        getElementById x (toggleElem l s.dom) ≠ none := by
      intro x hx
      have hxall : x ∈ allLabels := hsub x ((hmemf x).mp hx).1
      rw [hdom1 x, if_pos hxall]
      simp
    obtain ⟨dom2, hgo, hchar⟩ :=
      resyncGo_spec (s.sel.filter (fun el => el ≠ l)) (toggleElem l s.dom) hne
    have hstep : clickStep l s = ⟨s.sel.filter (fun el => el ≠ l), dom2⟩ := by
      simp only [clickStep, hch, resync_eq_resyncGo, hgo, Option.getD_some]
    rw [hstep]
    refine ⟨hnd.filter _, ?_, ?_, ?_, ?_⟩
    · intro x hx
      exact List.mem_append_left _ (htr x ((hmemf x).mp hx).1)
    · intro x hx
      exact hsub x ((hmemf x).mp hx).1
    · intro v
      rw [hchar v, hdom1 v]
      by_cases hvf : v ∈ s.sel.filter (fun el => el ≠ l)
      · obtain ⟨hvs, hvl⟩ := (hmemf v).mp hvf
        have hvall : v ∈ allLabels := hsub v hvs
        rw [if_pos hvf, if_pos hvall, if_pos hvall, if_neg hvl,
          Option.map_some', decide_eq_true hvf]
      · rw [if_neg hvf]
        by_cases hvall : v ∈ allLabels
        · rw [if_pos hvall, if_pos hvall]
          by_cases hvl : v = l
          · subst hvl
            have : ¬v ∈ s.sel.filter (fun el => el ≠ v) := fun hc =>
              ((hmemf v).mp hc).2 rfl
            simp [hsel, this]
          · have hvs : v ∉ s.sel := fun hc => hvf ((hmemf v).mpr ⟨hc, hvl⟩)
            simp [hvl, hvs, hvf]
        · rw [if_neg hvall, if_neg hvall]
    · have hsl : OrderedByLastCheck trace (s.sel.filter (fun el => el ≠ l)) :=
        hord.sublist (List.filter_sublist s.sel)
      refine List.Pairwise.imp_of_mem ?_ hsl
      intro a b ha hb hr
      have hal : a ≠ l := ((hmemf a).mp ha).2
      have hbl : b ≠ l := ((hmemf b).mp hb).2
      rw [lastOcc_concat_ne trace hal, lastOcc_concat_ne trace hbl]
      exact hr
  · -- the click checks `l`: the handler appends it to the selection
    have hch : changeHandler ((getElementById l (toggleElem l s.dom)).getD false)
        l s.sel = s.sel ++ [l] := by
      rw [hgl]
      simp [changeHandler, hsel]
    have hne : ∀ x ∈ s.sel ++ [l], getElementById x (toggleElem l s.dom) ≠ none := by
      intro x hx
      have hxall : x ∈ allLabels := by
        rcases List.mem_append.mp hx with hx1 | hx1
        · exact hsub x hx1
        · rwa [List.mem_singleton.mp hx1]
      rw [hdom1 x, if_pos hxall]
      simp
    obtain ⟨dom2, hgo, hchar⟩ := resyncGo_spec (s.sel ++ [l]) (toggleElem l s.dom) hne
    have hstep : clickStep l s = ⟨s.sel ++ [l], dom2⟩ := by
      simp only [clickStep, hch, resync_eq_resyncGo, hgo, Option.getD_some]
    rw [hstep]
    refine ⟨?_, ?_, ?_, ?_, ?_⟩
    · simp [List.nodup_append, hnd, hsel]
    · intro x hx
      rcases List.mem_append.mp hx with hx1 | hx1
      · exact List.mem_append_left _ (htr x hx1)
      · exact List.mem_append_right _ hx1
    · intro x hx
      rcases List.mem_append.mp hx with hx1 | hx1
      · exact hsub x hx1
      · rwa [List.mem_singleton.mp hx1]
    · intro v
      rw [hchar v, hdom1 v]
      by_cases hvin : v ∈ s.sel ++ [l]
      · have hvall : v ∈ allLabels := by
          rcases List.mem_append.mp hvin with hv1 | hv1
          · exact hsub v hv1
          · rwa [List.mem_singleton.mp hv1]
        rw [if_pos hvin, if_pos hvall, if_pos hvall]
        simp [hvin]
      · have hvl : v ≠ l := fun he =>
          hvin (he ▸ List.mem_append_right _ (List.mem_singleton.mpr rfl))
        have hvs : v ∉ s.sel := fun hc => hvin (List.mem_append_left _ hc)
        rw [if_neg hvin]
        by_cases hvall : v ∈ allLabels
        · rw [if_pos hvall, if_pos hvall, if_neg hvl]
          simp [hvs, hvin]
        · rw [if_neg hvall, if_neg hvall]
    · rw [OrderedByLastCheck, List.pairwise_append]
      refine ⟨?_, List.pairwise_singleton _ _, ?_⟩
      · refine List.Pairwise.imp_of_mem ?_ hord
        intro a b ha hb hr
        have hal : a ≠ l := fun he => hsel (he ▸ ha)
        have hbl : b ≠ l := fun he => hsel (he ▸ hb)
        rw [lastOcc_concat_ne trace hal, lastOcc_concat_ne trace hbl]
        exact hr
      · intro a ha b hb
        have hal : a ≠ l := fun he => hsel (he ▸ ha)
        rw [List.mem_singleton.mp hb, lastOcc_concat_self,
          lastOcc_concat_ne trace hal]
        exact lastOcc_lt_length (htr a ha)

/-- Every state reachable from the freshly mounted component by clicks on
rendered checkboxes satisfies the invariant. In particular the
resynchronization fault branch is never taken on such states. -/
theorem inv_runClicks (trace : List String) (h : ∀ x ∈ trace, x ∈ allLabels) :
    Inv trace (runClicks trace) := by
  induction trace using List.reverseRecOn with
  | nil => exact inv_init
  | append_singleton t l ih =>
    rw [runClicks_concat]
    refine inv_clickStep l (h l (List.mem_append_right _ (List.mem_singleton.mpr rfl))) ?_
    exact ih (fun x hx => h x (List.mem_append_left _ hx))

/-! ### The claims -/

/-- Claim C1 (amended): for every sequence of checkbox toggle clicks on
rendered checkboxes applied from the empty selection, the selection sequence
contains exactly the labels whose checkbox is currently checked, each
appearing exactly once, ordered by the time each most recently became
checked (the click that made it currently checked). -/
theorem c1_selection_invariant (trace : List String)
    (h : ∀ x ∈ trace, x ∈ allLabels) :
    (runClicks trace).sel.Nodup
      ∧ (∀ v, v ∈ (runClicks trace).sel
          ↔ getElementById v (runClicks trace).dom = some true)
      ∧ OrderedByLastCheck trace (runClicks trace).sel := by
  obtain ⟨hnd, htr, hsub, hdom, hord⟩ := inv_runClicks trace h
  refine ⟨hnd, ?_, hord⟩
  intro v
  constructor
  · intro hv
    rw [hdom v, if_pos (hsub v hv), decide_eq_true hv]
  · intro hv
    by_cases hvall : v ∈ allLabels
    · rw [hdom v, if_pos hvall] at hv
      exact of_decide_eq_true (Option.some.inj hv)
    · rw [hdom v, if_neg hvall] at hv
      exact absurd hv (by simp)

/-- Witness for claim C1 at the concrete click trace
["강남도서관", "노원학습관"]. -/
theorem c1_selection_invariant_witness :
    (runClicks ["강남도서관", "노원학습관"]).sel.Nodup
      ∧ (∀ v, v ∈ (runClicks ["강남도서관", "노원학습관"]).sel
          ↔ getElementById v (runClicks ["강남도서관", "노원학습관"]).dom = some true)
      ∧ OrderedByLastCheck ["강남도서관", "노원학습관"]
          (runClicks ["강남도서관", "노원학습관"]).sel :=
  c1_selection_invariant ["강남도서관", "노원학습관"] (by decide)

/-- Counterexample to claim C1 as stated: after clicking 강남도서관,
노원학습관, 강남도서관 (uncheck), 강남도서관 (recheck), both labels are
checked and the selection is ["노원학습관", "강남도서관"] — ordered by most
recent check, not by the time each was first checked (강남도서관 was first
checked before 노원학습관, yet comes second). -/
theorem c1_counterexample :
    ¬ OrderedByFirstCheck ["강남도서관", "노원학습관", "강남도서관", "강남도서관"]
        (runClicks ["강남도서관", "노원학습관", "강남도서관", "강남도서관"]).sel := by
  intro h
  have hsel : (runClicks ["강남도서관", "노원학습관", "강남도서관", "강남도서관"]).sel
      = ["노원학습관", "강남도서관"] := by decide
  rw [OrderedByFirstCheck, hsel] at h
  have h1 := (List.pairwise_cons.mp h).1 "강남도서관" (List.mem_singleton.mpr rfl)
  exact absurd h1 (by decide)

/-- Claim C2: evaluation of the reference resynchronization pass on a
selection containing a label with no rendered checkbox. `none` is the
uncaught TypeError from `a.checked = true` with `a = null`: the pass does
not complete, and (second conjunct) labels after the missing entry are not
resynchronized either — the pass aborts instead of skipping. -/
theorem c2_resync_fault :
    resync ["가짜도서관"] initDom = none
      ∧ resync ["가짜도서관", "강남도서관"] initDom = none := by
  exact ⟨rfl, rfl⟩

/-- Counterexample to claim C3 as stated: the handler appends
unconditionally, so two raw checked=true change events for the same label
would duplicate it. (Such events cannot actually be delivered by a checkbox,
whose change events alternate; see `c3_no_duplicates`.) -/
theorem c3_counterexample :
    1 < List.count "강남도서관"
        (changeHandler true "강남도서관" (changeHandler true "강남도서관" [])) := by
  decide

/-- Claim C3 (amended): change events are driven by checkbox transitions, so
two consecutive checked=true events for one label cannot occur; in the
transition-driven model no label ever appears more than once in the
selection sequence, no matter how often it is clicked. -/
theorem c3_no_duplicates (trace : List String)
    (h : ∀ x ∈ trace, x ∈ allLabels) (l : String) :
    (runClicks trace).sel.count l ≤ 1 := by
  obtain ⟨hnd, _, _, _, _⟩ := inv_runClicks trace h
  exact List.nodup_iff_count_le_one.mp hnd l

/-- Witness for claim C3: clicking the same label twice leaves at most one
occurrence. -/
theorem c3_no_duplicates_witness :
    (runClicks ["강남도서관", "강남도서관"]).sel.count "강남도서관" ≤ 1 :=
  c3_no_duplicates ["강남도서관", "강남도서관"] (by decide) "강남도서관"

/-- Counterexample to claim C4 as stated: if the label is already in the
selection sequence, checking appends a second copy and unchecking removes
both, so the round trip does not restore the original sequence. -/
theorem c4_counterexample :
    changeHandler false "강남도서관" (changeHandler true "강남도서관" ["강남도서관"])
      ≠ ["강남도서관"] := by
  decide

/-- Claim C4 (amended): for every selection sequence not already containing
the label — which is every reachable state in which that checkbox can
become checked — toggling the label on and then off returns the selection
sequence to its prior contents, irrespective of the other labels in it. -/
theorem c4_round_trip (s : List String) (l : String) (h : l ∉ s) :
    changeHandler false l (changeHandler true l s) = s := by
  have e1 : changeHandler true l s = s ++ [l] := rfl
  have e2 : changeHandler false l (s ++ [l])
      = (s ++ [l]).filter (fun el => el ≠ l) := rfl
  rw [e1, e2, List.filter_append]
  have h1 : List.filter (fun el => el ≠ l) [l] = [] := by simp
  have h2 : List.filter (fun el => el ≠ l) s = s := by
    refine List.filter_eq_self.mpr ?_
    intro a ha
    have hne : a ≠ l := fun he => h (he ▸ ha)
    simp [hne]
  rw [h1, h2, List.append_nil]

/-- Witness for claim C4 at a concrete selection and label. -/
theorem c4_round_trip_witness :
    "강남도서관" ∉ (["노원학습관"] : List String)
      ∧ changeHandler false "강남도서관"
          (changeHandler true "강남도서관" ["노원학습관"]) = ["노원학습관"] :=
  ⟨by decide, c4_round_trip ["노원학습관"] "강남도서관" (by decide)⟩

/-- Claim C5: a change event with checked=true hands the setter the old
sequence with the label appended at the end; in particular checking
"강남도서관" from the empty selection yields ["강남도서관"]. -/
theorem c5_check_appends :
    (∀ (s : List String) (l : String), changeHandler true l s = s ++ [l])
      ∧ changeHandler true "강남도서관" [] = ["강남도서관"] :=
  ⟨fun _ _ => rfl, rfl⟩

/-- Claim C6: a change event with checked=false hands the setter the old
sequence with every occurrence of the label removed (count drops to zero,
all other labels keep their multiplicity) and the remaining elements in
their original relative order (the result is a sublist of the input); in
particular unchecking "강남도서관" from ["강남도서관", "노원학습관"] yields
["노원학습관"]. -/
theorem c6_uncheck_removes_all :
    (∀ (s : List String) (l x : String),
        (changeHandler false l s).count x = if x = l then 0 else s.count x)
      ∧ (∀ (s : List String) (l : String), (changeHandler false l s).Sublist s)
      ∧ changeHandler false "강남도서관" ["강남도서관", "노원학습관"]
          = ["노원학습관"] := by
  refine ⟨?_, ?_, by decide⟩
  · intro s l x
    by_cases hx : x = l
    · subst hx
      rw [if_pos rfl]
      refine List.count_eq_zero.mpr ?_
      intro hc
      have := List.of_mem_filter hc
      simp at this
    · rw [if_neg hx]
      have e : changeHandler false l s = s.filter (fun el => el ≠ l) := rfl
      rw [e]
      refine List.count_filter ?_
      simp [hx]
  · intro s l
    exact List.filter_sublist s

/-- Claim C7: whenever every selected label has a rendered checkbox, the
post-render resynchronization pass completes and sets the checkbox whose id
equals each selected label to checked. -/
theorem c7_resync_checks_selected (sel : List String) (dom : Dom)
    (h : ∀ l ∈ sel, getElementById l dom ≠ none) :
    ∃ dom2, resync sel dom = some dom2
      ∧ ∀ l ∈ sel, getElementById l dom2 = some true := by
  obtain ⟨dom2, hgo, hchar⟩ := resyncGo_spec sel dom h
  refine ⟨dom2, by rw [resync_eq_resyncGo]; exact hgo, ?_⟩
  intro l hl
  rw [hchar l, if_pos hl]
  cases hg : getElementById l dom with
  | none => exact absurd hg (h l hl)
  | some b => rfl

/-- Witness for claim C7: a component mounted with selection ["종로도서관"]
shows the "종로도서관" checkbox as checked after the initial render. -/
theorem c7_resync_checks_selected_witness :
    ∃ dom2, resync ["종로도서관"] initDom = some dom2
      ∧ ∀ l ∈ (["종로도서관"] : List String), getElementById l dom2 = some true :=
  c7_resync_checks_selected ["종로도서관"] initDom (by decide)

/-- Claim C8: after any render caused by a sequence of clicks on rendered
checkboxes, the checked state of every rendered checkbox equals membership of its
label in the selection sequence: selected labels show checked, absent labels
show unchecked. -/
theorem c8_dom_matches_selection (trace : List String)
    (h : ∀ x ∈ trace, x ∈ allLabels) :
    ∀ v ∈ allLabels, getElementById v (runClicks trace).dom
      = some (decide (v ∈ (runClicks trace).sel)) := by
  obtain ⟨_, _, _, hdom, _⟩ := inv_runClicks trace h
  intro v hv
  rw [hdom v, if_pos hv]

/-- Witness for claim C8: after checking 강남도서관 and toggling 노원학습관
on and off, the checkbox state of 강남도서관 matches its selection
membership. -/
theorem c8_dom_matches_selection_witness :
    getElementById "강남도서관"
        (runClicks ["강남도서관", "노원학습관", "노원학습관"]).dom
      = some (decide ("강남도서관"
          ∈ (runClicks ["강남도서관", "노원학습관", "노원학습관"]).sel)) :=
  c8_dom_matches_selection ["강남도서관", "노원학습관", "노원학습관"] (by decide)
    "강남도서관" (by decide)

/-- Claim C9: the id attribute of every rendered checkbox equals its label text
(never the positional index), and the selection update triggered through an
input depends only on that id — two inputs built from the same label with
different indices (e.g. with and without the +100 offset of columns 2 and 3)
produce identical selection updates. -/
theorem c9_id_is_label :
    renderedInputs.map (fun inp => inp.id)
        = renderedInputs.map (fun inp => inp.text)
      ∧ (∀ (v : String) (i j : Nat) (checked : Bool) (sel : List String),
          inputToggle (CustomInput v i) checked sel
            = inputToggle (CustomInput v j) checked sel) :=
  ⟨rfl, fun _ _ _ _ _ => rfl⟩

/-- Claim C10: at the heap level the change handler allocates the new
sequence at a fresh reference and passes that to the setter; every
previously existing array, in particular the old selection sequence at
reference `r`, is left unmodified. -/
theorem c10_no_mutation (hp : Heap) (checked : Bool) (id : String) (r : Nat) :
    (changeHandlerRef checked id r hp).1.take hp.length = hp
      ∧ (changeHandlerRef checked id r hp).2 = hp.length
      ∧ (changeHandlerRef checked id r hp).1[hp.length]?
          = some (changeHandler checked id (hp.getD r [])) := by
  refine ⟨?_, rfl, ?_⟩
  · exact List.take_left hp _
  · exact List.getElem?_concat_length hp _

end LibLabel
